import Mathlib

/-!
Shallow embedding of the Mohnitor hub subsystem of the mohflow repository
(`src/mohflow/devui/`): data types (`types.py`), hub ingest (`hub.py`),
client forwarder (`client.py`), discovery (`discovery.py`) and leader
election (`election.py`), together with proofs settling the frozen claims
about the specification.

Modelling conventions:
* Python timezone-aware UTC datetimes are modelled as `Nat` (microseconds
  since the epoch).  `datetime.isoformat` renders a decimal digit string
  followed by the `+00:00` offset; `datetime.fromisoformat` is its
  documented inverse (both are Python standard library, not repository
  code, so they are modelled by an injective rendering with a verified
  parser).  Python `isoformat` output for an aware UTC datetime never ends
  in `Z`.
* Python exceptions are modelled with `Except String`; a `try/except`
  block that swallows exceptions becomes a `match` on the `Except` value.
* `Dict[str, Any]` context maps are modelled as association lists of
  string keys to string values.
-/

namespace Mohnitor

/-! ### Decimal digit rendering and parsing (model of the datetime codec) -/

/-- Character for a decimal digit value (`0 ≤ n ≤ 9` gives `'0'`–`'9'`). -/
def digitChar (n : Nat) : Char := Char.ofNat (48 + n)

/-- Numeric value of a decimal digit character. -/
def digitVal (c : Char) : Nat := c.toNat - 48

/-- Test for a decimal digit character. -/
def isDigitCh (c : Char) : Bool := 48 ≤ c.toNat && c.toNat ≤ 57

/-- Decimal rendering of a natural number, most significant digit first. -/
def natDigits (n : Nat) : List Char :=
  if h : n < 10 then [digitChar n]
  else natDigits (n / 10) ++ [digitChar (n % 10)]
  termination_by n
  decreasing_by
    exact Nat.div_lt_self (by omega) (by omega)

/-- Accumulating decimal value of a digit list. -/
def digitsVal (l : List Char) (acc : Nat) : Nat :=
  l.foldl (fun a c => 10 * a + digitVal c) acc

/-- Parse a nonempty all-digit character list as a natural number. -/
def parseDigits (l : List Char) : Option Nat :=
  if l ≠ [] && l.all isDigitCh then some (digitsVal l 0) else none

theorem digitChar_toNat (n : Nat) (h : n < 10) : (digitChar n).toNat = 48 + n := by
  unfold digitChar
  interval_cases n <;> decide

theorem digitVal_digitChar (n : Nat) (h : n < 10) : digitVal (digitChar n) = n := by
  simp [digitVal, digitChar_toNat n h]

theorem isDigitCh_digitChar (n : Nat) (h : n < 10) : isDigitCh (digitChar n) = true := by
  simp [isDigitCh, digitChar_toNat n h]; omega

theorem natDigits_ne_nil (n : Nat) : natDigits n ≠ [] := by
  rw [natDigits]
  split <;> simp

theorem natDigits_all_digits (n : Nat) : (natDigits n).all isDigitCh = true := by
  induction n using Nat.strong_induction_on with
  | _ n ih =>
    rw [natDigits]
    split
    case isTrue h => simp [isDigitCh_digitChar n h]
    case isFalse h =>
      rw [List.all_append]
      have h1 := ih (n / 10) (Nat.div_lt_self (by omega) (by omega))
      have h2 : isDigitCh (digitChar (n % 10)) = true :=
        isDigitCh_digitChar _ (Nat.mod_lt _ (by omega))
      simp [h1, h2]

theorem digitsVal_append (l1 l2 : List Char) (a : Nat) :
    digitsVal (l1 ++ l2) a = digitsVal l2 (digitsVal l1 a) := by
  simp [digitsVal, List.foldl_append]

theorem digitsVal_natDigits (n : Nat) (a : Nat) :
    digitsVal (natDigits n) a = a * 10 ^ (natDigits n).length + n := by
  induction n using Nat.strong_induction_on with
  | _ n ih =>
    rw [natDigits]
    split
    case isTrue h =>
      simp [digitsVal, digitVal_digitChar n h]; ring
    case isFalse h =>
      rw [digitsVal_append]
      have hrec := ih (n / 10) (Nat.div_lt_self (by omega) (by omega))
      rw [hrec]
      simp [digitsVal, digitVal_digitChar (n % 10) (Nat.mod_lt _ (by omega))]
      have hn : 10 * (n / 10) + n % 10 = n := Nat.div_add_mod n 10
      calc 10 * (a * 10 ^ (natDigits (n / 10)).length + n / 10) + n % 10
          = a * (10 ^ (natDigits (n / 10)).length * 10)
            + (10 * (n / 10) + n % 10) := by ring
        _ = a * 10 ^ ((natDigits (n / 10)).length + 1) + n := by
            rw [hn, pow_succ]

theorem parseDigits_natDigits (n : Nat) : parseDigits (natDigits n) = some n := by
  simp [parseDigits, natDigits_ne_nil n, natDigits_all_digits n]
  have := digitsVal_natDigits n 0
  simpa using this

/-! ### Timestamps

Model of timezone-aware UTC `datetime` values (`utcnow`,
`datetime.fromtimestamp(_, timezone.utc)`): microseconds since the epoch.
`isoformat` renders the value followed by the `+00:00` UTC offset;
`fromisoformat` parses that form (and the bare form for naive values). -/

abbrev DateTime := Nat

/-- Characters of the UTC offset suffix emitted by `isoformat`. -/
def utcOffsetChars : List Char := "+00:00".data

/-- Model of `datetime.isoformat` for an aware UTC value: digits then
the `+00:00` offset.  Such output never ends in `Z`. -/
def DateTime.isoformat (t : DateTime) : String :=
  ⟨natDigits t ++ utcOffsetChars⟩

/-- Drop a trailing `+00:00` UTC offset if one is present. -/
def stripUtcOffset (l : List Char) : List Char :=
  if l.drop (l.length - 6) = utcOffsetChars then l.take (l.length - 6) else l

/-- Model of `datetime.fromisoformat`: accepts the aware form
(digits followed by `+00:00`) or the bare digit form; `none` models the
`ValueError` raised on malformed input. -/
def DateTime.fromisoformat (s : String) : Option DateTime :=
  parseDigits (stripUtcOffset s.data)

theorem stripUtcOffset_isoformat (t : DateTime) :
    stripUtcOffset (natDigits t ++ utcOffsetChars) = natDigits t := by
  have hlen : (natDigits t ++ utcOffsetChars).length = (natDigits t).length + 6 := by
    simp [utcOffsetChars]
  unfold stripUtcOffset
  rw [hlen]
  have h6 : (natDigits t).length + 6 - 6 = (natDigits t).length := by omega
  rw [h6, List.drop_left, List.take_left, if_pos rfl]

theorem fromisoformat_isoformat (t : DateTime) :
    DateTime.fromisoformat (DateTime.isoformat t) = some t := by
  unfold DateTime.fromisoformat DateTime.isoformat
  show parseDigits (stripUtcOffset (natDigits t ++ utcOffsetChars)) = some t
  rw [stripUtcOffset_isoformat, parseDigits_natDigits]

theorem isoformat_getLast?_ne_Z (t : DateTime) :
    (DateTime.isoformat t).data.getLast? ≠ some (Char.ofNat 90) := by
  show (natDigits t ++ utcOffsetChars).getLast? ≠ some (Char.ofNat 90)
  rw [List.getLast?_append_of_ne_nil _ (by simp [utcOffsetChars])]
  decide

theorem isoformat_ne_empty (t : DateTime) : DateTime.isoformat t ≠ "" := by
  unfold DateTime.isoformat
  intro h
  have : natDigits t ++ utcOffsetChars = [] := congrArg String.data h
  simp [utcOffsetChars] at this

/-! ### LogEvent (`types.py`, lines 107–205) -/

/-- Model of a `Dict[str, Any]` context map: string keys to string values. -/
abbrev Ctx := List (String × String)

/-- Structured log entry for transmission and display (`LogEvent` dataclass). -/
structure LogEvent where
  timestamp : DateTime
  level : String
  service : String
  message : String
  logger : String
  trace_id : Option String
  context : Ctx
  source_host : String
  source_pid : Nat
  received_at : Option DateTime
deriving DecidableEq, Repr

/-- Valid log levels accepted by `LogEvent._validate_level`. -/
def validLevels : List String := ["DEBUG", "INFO", "WARN", "ERROR", "CRITICAL"]

/-- Model of constructing a `LogEvent`: `__post_init__` runs
`_validate_level` and `_validate_service`, each raising `ValueError`
(modelled as `Except.error`) on invalid input. -/
def LogEvent.make (timestamp : DateTime) (level service message logger : String)
    (trace_id : Option String) (context : Ctx) (source_host : String)
    (source_pid : Nat) (received_at : Option DateTime) : Except String LogEvent :=
  if level ∉ validLevels then
    .error "Invalid log level"
  else if service = "" then
    .error "Service name must be non-empty string"
  else
    .ok ⟨timestamp, level, service, message, logger, trace_id, context,
         source_host, source_pid, received_at⟩

/-- Serialized (dictionary) form of a `LogEvent`, as produced by
`LogEvent.to_dict`: all ten keys are always present, optional fields hold
`None` (modelled by `Option`). -/
structure LogEventDict where
  timestamp : String
  level : String
  service : String
  message : String
  logger : String
  trace_id : Option String
  context : Ctx
  source_host : String
  source_pid : Nat
  received_at : Option String
deriving DecidableEq, Repr

/-- Model of `LogEvent.to_dict` (`types.py` lines 144–159). -/
def LogEvent.to_dict (e : LogEvent) : LogEventDict :=
  { timestamp := DateTime.isoformat e.timestamp
    level := e.level
    service := e.service
    message := e.message
    logger := e.logger
    trace_id := e.trace_id
    context := e.context
    source_host := e.source_host
    source_pid := e.source_pid
    received_at := e.received_at.map DateTime.isoformat }

/-- Model of the `Z` fixup in `from_dict`: a string ending in `Z`
(character 90) becomes its prefix followed by `+00:00`. -/
def zToOffset (s : String) : String :=
  if s.data.getLast? = some (Char.ofNat 90) then
    ⟨s.data.dropLast ++ utcOffsetChars⟩
  else s

/-- Model of `LogEvent.from_dict` (`types.py` lines 161–189): parse the
timestamps (after the `Z` fixup), read optional keys with their defaults,
then construct the event (running the validations). -/
def LogEvent.from_dict (d : LogEventDict) : Except String LogEvent := do
  let timestamp ← match DateTime.fromisoformat (zToOffset d.timestamp) with
    | some t => Except.ok t
    | none => Except.error "ValueError: invalid isoformat string"
  let received_at ← match d.received_at with
    | none => Except.ok (none : Option DateTime)
    | some s =>
      if s = "" then Except.ok none
      else
        match DateTime.fromisoformat (zToOffset s) with
        | some t => Except.ok (some t)
        | none => Except.error "ValueError: invalid isoformat string"
  LogEvent.make timestamp d.level d.service d.message d.logger d.trace_id
    d.context d.source_host d.source_pid received_at

theorem zToOffset_isoformat (t : DateTime) :
    zToOffset (DateTime.isoformat t) = DateTime.isoformat t := by
  unfold zToOffset
  rw [if_neg (isoformat_getLast?_ne_Z t)]

theorem make_fields_eq_ok (e : LogEvent) (hl : e.level ∈ validLevels)
    (hs : e.service ≠ "") :
    LogEvent.make e.timestamp e.level e.service e.message e.logger
      e.trace_id e.context e.source_host e.source_pid e.received_at = .ok e := by
  unfold LogEvent.make
  rw [if_neg (by simpa using hl), if_neg (by simpa using hs)]

/-- Round-trip: deserializing the serialization of a constructible event
reproduces it exactly. -/
theorem from_dict_to_dict (e : LogEvent) (hl : e.level ∈ validLevels)
    (hs : e.service ≠ "") : LogEvent.from_dict (LogEvent.to_dict e) = .ok e := by
  unfold LogEvent.from_dict LogEvent.to_dict
  cases hr : e.received_at with
  | none =>
    simp only [hr, Option.map_none', zToOffset_isoformat, fromisoformat_isoformat]
    show LogEvent.make e.timestamp e.level e.service e.message e.logger
        e.trace_id e.context e.source_host e.source_pid none = .ok e
    rw [← hr]
    exact make_fields_eq_ok e hl hs
  | some t =>
    simp only [hr, Option.map_some', zToOffset_isoformat, fromisoformat_isoformat]
    simp only [if_neg (isoformat_ne_empty t)]
    show LogEvent.make e.timestamp e.level e.service e.message e.logger
        e.trace_id e.context e.source_host e.source_pid (some t) = .ok e
    rw [← hr]
    exact make_fields_eq_ok e hl hs

/-! ### JSON serialization size (`LogEvent.serialized_size`, `types.py`
lines 191–201)

`serialized_size` is the UTF-8 byte length of `json.dumps(self.to_dict())`
with the default separators (comma-space and colon-space) and
`ensure_ascii=True`.  The encoder is modelled at the character-list
level; the byte length is the sum of the UTF-8 sizes of the output
characters. -/

/-- Lowercase hexadecimal digit character. -/
def hexDigitChar (n : Nat) : Char :=
  if n < 10 then Char.ofNat (48 + n) else Char.ofNat (87 + n)

/-- Four-digit hexadecimal rendering used by the `\uXXXX` escapes. -/
def hex4 (n : Nat) : List Char :=
  [hexDigitChar (n / 4096 % 16), hexDigitChar (n / 256 % 16),
   hexDigitChar (n / 16 % 16), hexDigitChar (n % 16)]

/-- Escape of one character per `json.dumps` with `ensure_ascii=True`:
quote and backslash get a backslash escape, common control characters get
two-character escapes, other control and all non-ASCII characters get
`\uXXXX` escapes (a surrogate pair beyond the BMP), and printable ASCII
passes through. -/
def escapeChar (c : Char) : List Char :=
  if c = Char.ofNat 34 then [Char.ofNat 92, Char.ofNat 34]
  else if c = Char.ofNat 92 then [Char.ofNat 92, Char.ofNat 92]
  else if c = Char.ofNat 10 then [Char.ofNat 92, 'n']
  else if c = Char.ofNat 13 then [Char.ofNat 92, 'r']
  else if c = Char.ofNat 9 then [Char.ofNat 92, 't']
  else if c = Char.ofNat 8 then [Char.ofNat 92, 'b']
  else if c = Char.ofNat 12 then [Char.ofNat 92, 'f']
  else if c.toNat < 32 then Char.ofNat 92 :: 'u' :: hex4 c.toNat
  else if c.toNat < 127 then [c]
  else if c.toNat ≤ 65535 then Char.ofNat 92 :: 'u' :: hex4 c.toNat
  else
    (Char.ofNat 92 :: 'u' :: hex4 (55296 + (c.toNat - 65536) / 1024)) ++
      (Char.ofNat 92 :: 'u' :: hex4 (56320 + (c.toNat - 65536) % 1024))

/-- JSON string literal: quote, escaped characters, quote. -/
def jsonStrChars (s : String) : List Char :=
  Char.ofNat 34 :: (s.data.map escapeChar).flatten ++ [Char.ofNat 34]

/-- Join pieces with a separator, as the comma-space between dict items. -/
def joinSepChars (sep : List Char) : List (List Char) → List Char
  | [] => []
  | [x] => x
  | x :: y :: xs => x ++ sep ++ joinSepChars sep (y :: xs)

/-- JSON `null`. -/
def jsonNullChars : List Char := "null".data

/-- Nullable string value. -/
def jsonOptStrChars : Option String → List Char
  | none => jsonNullChars
  | some s => jsonStrChars s

/-- JSON object for the context map, in insertion order. -/
def jsonCtxChars (ctx : Ctx) : List Char :=
  Char.ofNat 123 ::
    joinSepChars ", ".data
      (ctx.map fun kv => jsonStrChars kv.1 ++ ": ".data ++ jsonStrChars kv.2)
    ++ [Char.ofNat 125]

/-- Rendering of one key of the serialized dict: quoted key, colon, space. -/
def keyColon (k : String) : List Char := jsonStrChars k ++ ": ".data

/-- Model of `json.dumps` applied to the `to_dict` output: keys in
insertion order, comma-space separators. -/
def jsonLogEventDictChars (d : LogEventDict) : List Char :=
  List.flatten [
    [Char.ofNat 123],
    keyColon "timestamp", jsonStrChars d.timestamp, ", ".data,
    keyColon "level", jsonStrChars d.level, ", ".data,
    keyColon "service", jsonStrChars d.service, ", ".data,
    keyColon "message", jsonStrChars d.message, ", ".data,
    keyColon "logger", jsonStrChars d.logger, ", ".data,
    keyColon "trace_id", jsonOptStrChars d.trace_id, ", ".data,
    keyColon "context", jsonCtxChars d.context, ", ".data,
    keyColon "source_host", jsonStrChars d.source_host, ", ".data,
    keyColon "source_pid", natDigits d.source_pid, ", ".data,
    keyColon "received_at", jsonOptStrChars d.received_at,
    [Char.ofNat 125] ]

/-- UTF-8 byte length of a character list. -/
def utf8Bytes (l : List Char) : Nat := (l.map Char.utf8Size).sum

/-- Model of `LogEvent.serialized_size`: byte length of the UTF-8
encoding of the JSON rendering of `to_dict`. -/
def LogEvent.serialized_size (e : LogEvent) : Nat :=
  utf8Bytes (jsonLogEventDictChars (LogEvent.to_dict e))

/-- Model of `LogEvent.validate_size` (`types.py` lines 195–201): raise
`ValueError` exactly when the serialized size exceeds the limit (default
argument `max_size = 64 * 1024`). -/
def LogEvent.validate_size (e : LogEvent) (max_size : Nat) : Except String Unit :=
  if max_size < e.serialized_size then
    .error "LogEvent size exceeds limit"
  else
    .ok ()

theorem one_le_utf8Size (c : Char) : 1 ≤ c.utf8Size := by
  unfold Char.utf8Size
  dsimp only
  split
  · omega
  · split
    · omega
    · split <;> omega

theorem utf8Bytes_append (l1 l2 : List Char) :
    utf8Bytes (l1 ++ l2) = utf8Bytes l1 + utf8Bytes l2 := by
  simp [utf8Bytes]

theorem length_le_utf8Bytes (l : List Char) : l.length ≤ utf8Bytes l := by
  induction l with
  | nil => simp [utf8Bytes]
  | cons c cs ih =>
    have := one_le_utf8Size c
    simp only [utf8Bytes, List.map_cons, List.sum_cons, List.length_cons]
    have : cs.length ≤ (cs.map Char.utf8Size).sum := ih
    omega

theorem escapeChar_ne_nil (c : Char) : escapeChar c ≠ [] := by
  unfold escapeChar
  repeat' split
  all_goals simp [hex4]

theorem length_le_utf8Bytes_flatten_escape (l : List Char) :
    l.length ≤ utf8Bytes ((l.map escapeChar).flatten) := by
  induction l with
  | nil => simp [utf8Bytes]
  | cons c cs ih =>
    simp only [List.map_cons, List.flatten_cons, List.length_cons]
    rw [utf8Bytes_append]
    have h1 : 1 ≤ utf8Bytes (escapeChar c) := by
      have hne := escapeChar_ne_nil c
      have hlen : 1 ≤ (escapeChar c).length := by
        cases h : escapeChar c with
        | nil => exact absurd h hne
        | cons a as => simp
      exact le_trans hlen (length_le_utf8Bytes _)
    omega

/-- The serialized size dominates the message length: the escaped message
body appears inside the rendered JSON document. -/
theorem message_length_le_serialized_size (e : LogEvent) :
    e.message.data.length ≤ e.serialized_size := by
  unfold LogEvent.serialized_size jsonLogEventDictChars LogEvent.to_dict
  simp only [List.flatten_cons, List.flatten_nil]
  simp only [utf8Bytes_append]
  have h1 : e.message.data.length ≤ utf8Bytes (jsonStrChars e.message) := by
    unfold jsonStrChars
    have h2 := length_le_utf8Bytes_flatten_escape e.message.data
    have h3 : utf8Bytes (Char.ofNat 34 :: (e.message.data.map escapeChar).flatten
        ++ [Char.ofNat 34]) =
        Char.utf8Size (Char.ofNat 34)
        + utf8Bytes ((e.message.data.map escapeChar).flatten)
        + Char.utf8Size (Char.ofNat 34) := by
      show utf8Bytes ([Char.ofNat 34] ++ ((e.message.data.map escapeChar).flatten
        ++ [Char.ofNat 34])) = _
      rw [utf8Bytes_append, utf8Bytes_append]
      simp [utf8Bytes]
      omega
    omega
  omega

/-! ### Hub ingest (`hub.py`, `MohnitorHub._handle_client_message`)

Buffer-relevant state of a `MohnitorHub`: the ring buffer (a list, front =
oldest), its capacity `buffer_size`, and the `dropped_events` counter.
Connection bookkeeping, the performance monitor and the UI broadcast do
not touch this state and are outside the model. -/

structure MohnitorHub where
  buffer_size : Nat
  event_buffer : List LogEvent
  dropped_events : Nat
deriving DecidableEq, Repr

/-- Model of the `log_event` branch of `_handle_client_message` (`hub.py`
lines 298–324): parse the payload (`LogEvent.from_dict`; any exception is
caught by the handler and the message dropped), stamp `received_at`
(`set_received_at`, `now` models `utcnow`), then, if the buffer already
holds at least `buffer_size` events, increment `dropped_events` and
discard the incoming event, otherwise append it.  No size validation is
performed. -/
def MohnitorHub.handleLogEvent (hub : MohnitorHub) (payload : LogEventDict)
    (now : DateTime) : MohnitorHub :=
  match LogEvent.from_dict payload with
  | .error _ => hub
  | .ok ev0 =>
    let ev := { ev0 with received_at := some now }
    if hub.buffer_size ≤ hub.event_buffer.length then
      { hub with dropped_events := hub.dropped_events + 1 }
    else
      { hub with event_buffer := hub.event_buffer ++ [ev] }

/-- Ingest a sequence of `log_event` messages in order. -/
def MohnitorHub.ingestAll (hub : MohnitorHub)
    (msgs : List (LogEventDict × DateTime)) : MohnitorHub :=
  msgs.foldl (fun h m => h.handleLogEvent m.1 m.2) hub

theorem handleLogEvent_buffer_size (hub : MohnitorHub) (p : LogEventDict)
    (now : DateTime) :
    (hub.handleLogEvent p now).buffer_size = hub.buffer_size := by
  unfold MohnitorHub.handleLogEvent
  cases LogEvent.from_dict p with
  | error e => rfl
  | ok ev => dsimp only; split <;> rfl

/-- Counting invariant of the ingest loop: starting below or at capacity,
after `n` successfully parsed messages the buffer holds
`min (initial + n) capacity` events and the drop counter has grown by the
overflow. -/
theorem ingestAll_counts (msgs : List (LogEventDict × DateTime)) :
    ∀ hub : MohnitorHub,
      (∀ m ∈ msgs, (LogEvent.from_dict m.1).isOk) →
      hub.event_buffer.length ≤ hub.buffer_size →
      (hub.ingestAll msgs).buffer_size = hub.buffer_size ∧
      (hub.ingestAll msgs).event_buffer.length =
        min (hub.event_buffer.length + msgs.length) hub.buffer_size ∧
      (hub.ingestAll msgs).dropped_events =
        hub.dropped_events +
          (hub.event_buffer.length + msgs.length -
            min (hub.event_buffer.length + msgs.length) hub.buffer_size) := by
  induction msgs with
  | nil =>
    intro hub _ hle
    refine ⟨rfl, ?_, ?_⟩ <;> simp [MohnitorHub.ingestAll] <;> omega
  | cons m rest ih =>
    intro hub hok hle
    have hmok : (LogEvent.from_dict m.1).isOk := hok m (by simp)
    have hrest : ∀ x ∈ rest, (LogEvent.from_dict x.1).isOk := by
      intro x hx; exact hok x (by simp [hx])
    have hstep : hub.ingestAll (m :: rest) =
        (hub.handleLogEvent m.1 m.2).ingestAll rest := rfl
    obtain ⟨ev, hev⟩ : ∃ ev, LogEvent.from_dict m.1 = .ok ev := by
      cases h : LogEvent.from_dict m.1 with
      | error e => rw [h] at hmok; simp [Except.isOk, Except.toBool] at hmok
      | ok ev => exact ⟨ev, rfl⟩
    unfold MohnitorHub.handleLogEvent at hstep
    rw [hev] at hstep
    dsimp only at hstep
    by_cases hfull : hub.buffer_size ≤ hub.event_buffer.length
    · -- buffer at capacity: event dropped, counter incremented
      have hlen : hub.event_buffer.length = hub.buffer_size := by omega
      rw [if_pos hfull] at hstep
      rw [hstep]
      obtain ⟨h1, h2, h3⟩ := ih { hub with dropped_events := hub.dropped_events + 1 }
        hrest (by simpa using hle)
      refine ⟨h1, ?_, ?_⟩ <;> simp only [h2, h3] <;> simp [List.length_cons, hlen] <;> omega
    · -- room available: event appended
      rw [if_neg hfull] at hstep
      rw [hstep]
      obtain ⟨h1, h2, h3⟩ := ih
        { hub with event_buffer := hub.event_buffer ++
            [{ ev with received_at := some m.2 }] }
        hrest (by simp; omega)
      refine ⟨h1, ?_, ?_⟩ <;> simp only [h2, h3] <;> simp [List.length_append] <;> omega

/-! ### Client forwarder (`client.py`, `MohnitorForwardingHandler`) -/

/-- Fields of a Python `logging.LogRecord` read by `emit`: `created`,
`levelname`, `getMessage()` (modelled as the `message` field), `name`,
the optional `trace_id` and `context` attributes, and `process`. -/
structure LogRecord where
  created : DateTime
  levelname : String
  message : String
  name : String
  trace_id : Option String
  context : Ctx
  process : Nat
deriving DecidableEq, Repr

/-- Queue-relevant state of a `MohnitorForwardingHandler`: the service
name, the bounded queue (`queue.Queue(maxsize=buffer_size)`, modelled as
a list, front = oldest) and its bound. -/
structure MohnitorForwardingHandler where
  service : String
  buffer_size : Nat
  log_queue : List LogEventDict
deriving DecidableEq, Repr

/-- Model of `MohnitorForwardingHandler.emit` (`client.py` lines 51–78):
construct a `LogEvent` from the record (any exception — for example an
invalid level name — is swallowed by the outer `try/except`, dropping the
record), then `put_nowait` its serialized form; a full queue raises
`queue.Full`, which is caught and the event silently dropped.  The
function is total: no exception escapes and nothing blocks. -/
def MohnitorForwardingHandler.emit (h : MohnitorForwardingHandler)
    (record : LogRecord) : MohnitorForwardingHandler :=
  match LogEvent.make record.created record.levelname h.service record.message
      record.name record.trace_id record.context "localhost" record.process
      none with
  | .error _ => h
  | .ok ev =>
    -- `put_nowait` raises `queue.Full` iff the queue is bounded and full
    if 0 < h.buffer_size ∧ h.buffer_size ≤ h.log_queue.length then h
    else { h with log_queue := h.log_queue ++ [LogEvent.to_dict ev] }

theorem emit_full_drops (h : MohnitorForwardingHandler) (record : LogRecord)
    (hfull : 0 < h.buffer_size ∧ h.buffer_size ≤ h.log_queue.length) :
    h.emit record = h := by
  unfold MohnitorForwardingHandler.emit
  cases LogEvent.make record.created record.levelname h.service record.message
      record.name record.trace_id record.context "localhost" record.process
      none with
  | error e => rfl
  | ok ev => simp [if_pos hfull]

theorem emit_invalid_level_drops (h : MohnitorForwardingHandler)
    (record : LogRecord) (hlv : record.levelname ∉ validLevels) :
    h.emit record = h := by
  unfold MohnitorForwardingHandler.emit LogEvent.make
  rw [if_pos (by simpa using hlv)]

/-! ### HubDescriptor (`types.py`, lines 22–104) -/

/-- Discovery and connection metadata for an active hub. -/
structure HubDescriptor where
  host : String
  port : Nat
  pid : Nat
  token : Option String
  created_at : DateTime
  version : String
deriving DecidableEq, Repr

/-- Character class of `_validate_host` for hostnames: letters, digits,
dot, hyphen. -/
def isHostChar (c : Char) : Bool := c.isAlphanum || c = '.' || c = '-'

/-- Test for two adjacent dots. -/
def hasDoubleDot : List Char → Bool
  | a :: b :: rest => (a = '.' && b = '.') || hasDoubleDot (b :: rest)
  | _ => false

/-- Model of `HubDescriptor._validate_host`: non-empty, hostname character
set, no `..`.  (IPv4 literals such as `127.0.0.1` satisfy this; IPv6
literals are outside the model.) -/
def hostOk (host : String) : Bool :=
  host ≠ "" && host.data.all isHostChar && !hasDoubleDot host.data

/-- Model of constructing a `HubDescriptor`: `__post_init__` validates the
host, the port range `1024`–`65535`, that the pid is positive (a `Nat`
pid fails iff it is `0`), and that non-localhost hosts carry a token;
each failure raises `ValueError`. -/
def HubDescriptor.make (host : String) (port : Nat) (pid : Nat)
    (token : Option String) (created_at : DateTime) (version : String) :
    Except String HubDescriptor :=
  if ¬ hostOk host then
    .error "Invalid host"
  else if port < 1024 ∨ 65535 < port then
    .error "Port must be between 1024-65535"
  else if pid = 0 then
    .error "PID must be positive integer"
  else if host ≠ "127.0.0.1" ∧ host ≠ "localhost" ∧ token = none then
    .error "Token required for non-localhost hosts"
  else
    .ok ⟨host, port, pid, token, created_at, version⟩

/-! ### Discovery (`discovery.py`)

The environment of a `discover_hub()` call: the two environment
variables, the descriptor file state, the outcome of `requests.get` on a
healthcheck URL keyed by host and port (`none` models a raised
`RequestException`, `some code` a response with that status code), pid
liveness, and the current time.  `psutil` and `requests` are taken as
available.  Self-healing deletion of a stale descriptor file is a file
system side effect not reflected in the modelled return value. -/

/-- Parsed state of the descriptor file: absent, unreadable (bad JSON or
failed validation, every exception being caught), or a descriptor that
`HubDescriptor.from_dict` accepted. -/
inductive DescriptorFile
  | invalid
  | parsed (d : HubDescriptor)
deriving DecidableEq, Repr

structure DiscoveryEnv where
  mohnitor_remote : Option String
  mohnitor_token : Option String
  descriptor_file : Option DescriptorFile
  httpStatus : String → Nat → Option Nat
  pid_alive : Nat → Bool
  now : DateTime

/-- Model of the URL dissection in `_discover_from_remote_url` (`discovery.py`
lines 60–74): require the `ws://` scheme, take the text before the first
slash (`split("/")[0]`, which equals the whole rest when no slash is
present), split host and port at the last colon (`rsplit(":", 1)`; `int`
raising `ValueError` on a non-numeric port, caught by the enclosing
`try`), defaulting the port to `17361` when no colon is present. -/
def parseWsUrl (remote_url : String) : Option (String × Nat) :=
  let l := remote_url.data
  if l.take 5 = "ws://".data then
    let url_part := l.drop 5
    let host_port := url_part.takeWhile (fun c => c ≠ '/')
    if host_port.contains ':' then
      let r := host_port.reverse
      let suf := r.takeWhile (fun c => c ≠ ':')
      let host : String := ⟨(r.drop (suf.length + 1)).reverse⟩
      match parseDigits suf.reverse with
      | some port => some (host, port)
      | none => none
    else
      some (⟨host_port⟩, 17361)
  else none

/-- Model of `_discover_from_remote_url` (`discovery.py` lines 57–94):
parse the URL, health-check the host and port, and on a 200 response
construct a descriptor with `pid=0` and the `MOHNITOR_TOKEN` value.  The
entire body is wrapped in `try/except (RequestException, ValueError,
Exception)`, so any failure — including the `ValueError` raised by
`HubDescriptor` validation — yields `None`. -/
def _discover_from_remote_url (env : DiscoveryEnv) (remote_url : String) :
    Option HubDescriptor :=
  match parseWsUrl remote_url with
  | none => none
  | some (host, port) =>
    match env.httpStatus host port with
    | none => none
    | some code =>
      if code = 200 then
        match HubDescriptor.make host port 0 env.mohnitor_token env.now
            "1.0.0" with
        | .ok d => some d
        | .error _ => none
      else none

/-- Model of `_validate_hub_health` (`discovery.py` lines 170–180): a 200
response means healthy; a raised exception means unhealthy. -/
def _validate_hub_health (env : DiscoveryEnv) (d : HubDescriptor) : Bool :=
  match env.httpStatus d.host d.port with
  | some code => code == 200
  | none => false

/-- Model of `_discover_from_file` (`discovery.py` lines 97–127): no file
or an unreadable file gives `None`; a parsed descriptor is returned only
if its pid is alive and the hub answers the health check (otherwise the
stale file is deleted and `None` returned). -/
def _discover_from_file (env : DiscoveryEnv) : Option HubDescriptor :=
  match env.descriptor_file with
  | none => none
  | some .invalid => none
  | some (.parsed d) =>
    if ¬ env.pid_alive d.pid then none
    else if ¬ _validate_hub_health env d then none
    else some d

/-- One probe iteration of `_probe_default_port` (`discovery.py` lines
130–151) over the remaining ports.  A `RequestException` from
`requests.get` is caught and the loop continues; a non-200 response falls
through to the next port; a 200 response constructs a descriptor with
`pid=0` — and the `ValueError` its validation raises is NOT caught here
(the `except` clause names only `requests.RequestException`), so it
escapes as `Except.error`. -/
def probeGo (env : DiscoveryEnv) : List Nat → Except String (Option HubDescriptor)
  | [] => .ok none
  | p :: rest =>
    match env.httpStatus "127.0.0.1" p with
    | none => probeGo env rest
    | some code =>
      if code = 200 then
        match HubDescriptor.make "127.0.0.1" p 0 none env.now "1.0.0" with
        | .ok d => .ok (some d)
        | .error msg => .error msg
      else probeGo env rest

/-- Model of `_probe_default_port`: probe ports 17361–17380. -/
def _probe_default_port (env : DiscoveryEnv) : Except String (Option HubDescriptor) :=
  probeGo env (List.range' 17361 20)

/-- Model of `discover_hub` (`discovery.py` lines 31–54): a non-empty
`MOHNITOR_REMOTE` value short-circuits to the remote strategy (its result
is returned even when `None`); otherwise the descriptor file, then the
port probe; an exception escaping a strategy propagates to the caller. -/
def discover_hub (env : DiscoveryEnv) : Except String (Option HubDescriptor) :=
  match env.mohnitor_remote with
  | some url =>
    if url ≠ "" then .ok (_discover_from_remote_url env url)
    else discoverFromFileOrProbe env
  | none => discoverFromFileOrProbe env
where
  discoverFromFileOrProbe (env : DiscoveryEnv) : Except String (Option HubDescriptor) :=
    match _discover_from_file env with
    | some d => .ok (some d)
    | none => _probe_default_port env

/-! ### Leader election (`election.py`) -/

/-- Contents of the election lock file: `{pid, timestamp}`. -/
structure LockData where
  pid : Nat
  timestamp : DateTime
deriving DecidableEq, Repr

/-- Shared file system state touched by the election: the lock file and
the hub descriptor file. -/
structure ElectionFS where
  lock : Option LockData
  descriptor : Option HubDescriptor
deriving DecidableEq, Repr

/-- Environment of a `try_become_hub` call: own pid (`os.getpid()`, always
positive for a real process but not assumed so), current time, pid
liveness, per-port bind success (`_find_available_port` binds and
immediately closes a probe socket), the generated auth token, and the
`host`/`base_port` arguments. -/
structure ElectionEnv where
  self_pid : Nat
  now : DateTime
  pid_alive : Nat → Bool
  port_free : Nat → Bool
  gen_token : String
  host : String
  base_port : Nat

/-- Model of `_is_lock_stale` (`election.py` lines 84–102): a missing or
unreadable lock file and a falsy (`0`) pid count as stale; otherwise the
lock is stale iff its pid is dead. -/
def _is_lock_stale (env : ElectionEnv) (fs : ElectionFS) : Bool :=
  match fs.lock with
  | none => true
  | some l => if l.pid = 0 then true else ! env.pid_alive l.pid

/-- Model of `_acquire_lock` (`election.py` lines 57–81): exclusive-create
the lock file; on `FileExistsError`, delete a stale lock and retry (in
this single-caller model the retried create succeeds), otherwise fail. -/
def _acquire_lock (env : ElectionEnv) (fs : ElectionFS) : Bool × ElectionFS :=
  match fs.lock with
  | none => (true, { fs with lock := some ⟨env.self_pid, env.now⟩ })
  | some _ =>
    if _is_lock_stale env fs then
      (true, { fs with lock := some ⟨env.self_pid, env.now⟩ })
    else (false, fs)

/-- Model of `_release_lock` (`election.py` lines 105–110): delete the
lock file, ignoring errors. -/
def _release_lock (fs : ElectionFS) : ElectionFS := { fs with lock := none }

/-- Ports scanned by `_find_available_port`: twenty from `base_port`. -/
def electionPorts (base_port : Nat) : List Nat := List.range' base_port 20

/-- Model of `_find_available_port` (`election.py` lines 113–125): the
first port in the range that binds. -/
def _find_available_port (env : ElectionEnv) : Option Nat :=
  (electionPorts env.base_port).find? (fun p => env.port_free p)

/-- Model of `_save_descriptor` (`election.py` lines 135–141). -/
def _save_descriptor (fs : ElectionFS) (d : HubDescriptor) : ElectionFS :=
  { fs with descriptor := some d }

/-- Model of `try_become_hub` (`election.py` lines 18–54): acquire the
lock (returning `None` without it); then, under `try/finally`, find a
port (`None` on exhaustion), build and save a fresh descriptor (whose
validation can raise, propagating to the caller), and return the port.
The `finally` clause releases the lock on every exit path of the `try`
block, the exceptional one included. -/
def try_become_hub (env : ElectionEnv) (fs : ElectionFS) :
    Except String (Option Nat) × ElectionFS :=
  let acq := _acquire_lock env fs
  if ¬ acq.1 then (.ok none, acq.2)
  else
    match _find_available_port env with
    | none => (.ok none, _release_lock acq.2)
    | some port =>
      match HubDescriptor.make env.host port env.self_pid
          (if env.host = "127.0.0.1" then none else some env.gen_token)
          env.now "1.0.0" with
      | .error e => (.error e, _release_lock acq.2)
      | .ok d => (.ok (some port), _release_lock (_save_descriptor acq.2 d))

theorem try_become_hub_releases (env : ElectionEnv) (fs : ElectionFS)
    (hacq : (_acquire_lock env fs).1 = true) :
    (try_become_hub env fs).2.lock = none := by
  unfold try_become_hub
  rw [if_neg (by simp [hacq])]
  repeat' split
  all_goals rfl

theorem try_become_hub_exhausted (env : ElectionEnv) (fs : ElectionFS)
    (hacq : (_acquire_lock env fs).1 = true)
    (hports : ∀ p ∈ electionPorts env.base_port, env.port_free p = false) :
    (try_become_hub env fs).1 = .ok none ∧
    (try_become_hub env fs).2.lock = none := by
  have hfind : _find_available_port env = none := by
    unfold _find_available_port
    rw [List.find?_eq_none]
    intro p hp
    simp [hports p hp]
  constructor
  · unfold try_become_hub
    rw [if_neg (by simp [hacq]), hfind]
  · exact try_become_hub_releases env fs hacq

/-! ### Racing elections (model for the mutual-exclusion property)

An interleaving model of `N` live processes each calling
`try_become_hub` once against the same lock path, with every port in the
range free.  Each process takes two atomic steps: the exclusive-create
lock acquisition (atomic at the OS level), and — while holding the lock —
the port scan, descriptor write and the `finally` release, after which it
returns the first port of the range.  A process whose acquisition attempt
finds the lock held by a live peer returns `None` immediately. -/

inductive RacePhase
  | ready
  | locked
  | finished (res : Option Nat)
deriving DecidableEq, Repr

structure RaceState (n : Nat) where
  lock : Option (Fin n)
  procs : Fin n → RacePhase

/-- One atomic step of process `i`. -/
def raceStep (n : Nat) (base_port : Nat) (s : RaceState n) (i : Fin n) :
    RaceState n :=
  match s.procs i with
  | .ready =>
    match s.lock with
    | none => { lock := some i, procs := Function.update s.procs i .locked }
    | some _ => { s with procs := Function.update s.procs i (.finished none) }
  | .locked =>
    { lock := none,
      procs := Function.update s.procs i (.finished (some base_port)) }
  | .finished _ => s

/-- Initial state: lock absent, every process about to try. -/
def raceInit (n : Nat) : RaceState n := ⟨none, fun _ => .ready⟩

/-- Run a schedule (an arbitrary interleaving) of process steps. -/
def raceRun (n base_port : Nat) (s : RaceState n) (sched : List (Fin n)) :
    RaceState n :=
  sched.foldl (raceStep n base_port) s

/-- Lock-ownership invariant: any process in its critical section is the
recorded lock holder. -/
def lockInv (n : Nat) (s : RaceState n) : Prop :=
  ∀ i : Fin n, s.procs i = .locked → s.lock = some i

theorem lockInv_init (n : Nat) : lockInv n (raceInit n) := by
  intro i h
  simp [raceInit] at h

theorem lockInv_step (n base_port : Nat) (s : RaceState n) (i : Fin n)
    (hinv : lockInv n s) : lockInv n (raceStep n base_port s i) := by
  intro j hj
  unfold raceStep at hj ⊢
  cases hpi : s.procs i with
  | ready =>
    rw [hpi] at hj
    dsimp only at hj ⊢
    cases hl : s.lock with
    | none =>
      rw [hl] at hj
      dsimp only at hj ⊢
      by_cases hij : j = i
      · subst hij; rfl
      · rw [Function.update_noteq hij] at hj
        have hlk := hinv j hj
        rw [hl] at hlk
        exact absurd hlk (by simp)
    | some k =>
      rw [hl] at hj
      dsimp only at hj ⊢
      by_cases hij : j = i
      · subst hij; rw [Function.update_same] at hj; exact absurd hj (by simp)
      · rw [Function.update_noteq hij] at hj
        have hlk := hinv j hj
        rw [hl] at hlk
        exact hlk
  | locked =>
    rw [hpi] at hj
    dsimp only at hj ⊢
    by_cases hij : j = i
    · subst hij; rw [Function.update_same] at hj; exact absurd hj (by simp)
    · rw [Function.update_noteq hij] at hj
      have h1 := hinv j hj
      have h2 := hinv i hpi
      rw [h2] at h1
      exact absurd (Option.some.inj h1).symm hij
  | finished r =>
    rw [hpi] at hj
    dsimp only at hj ⊢
    exact hinv j hj

theorem lockInv_run (n base_port : Nat) (sched : List (Fin n)) :
    ∀ s : RaceState n, lockInv n s → lockInv n (raceRun n base_port s sched) := by
  induction sched with
  | nil => intro s hs; exact hs
  | cons i rest ih =>
    intro s hs
    exact ih (raceStep n base_port s i) (lockInv_step n base_port s i hs)

/-- Mutual exclusion of the critical section, for every schedule. -/
theorem race_mutex (n base_port : Nat) (sched : List (Fin n)) (i j : Fin n)
    (hi : (raceRun n base_port (raceInit n) sched).procs i = .locked)
    (hj : (raceRun n base_port (raceInit n) sched).procs j = .locked) :
    i = j := by
  have hinv := lockInv_run n base_port sched (raceInit n) (lockInv_init n)
  have h1 := hinv i hi
  have h2 := hinv j hj
  rw [h1] at h2
  exact Option.some.inj h2

/-! ### Concrete fixtures used by the claim theorems and witnesses -/

/-- A small valid event. -/
def evA : LogEvent :=
  ⟨0, "INFO", "auth", "hello", "auth.handler", none, [], "", 0, none⟩

/-- A second small valid event, distinct from `evA`. -/
def evB : LogEvent :=
  ⟨1, "ERROR", "api", "boom", "api.handler", none, [], "", 0, none⟩

/-- A valid event exercising every optional field. -/
def evFull : LogEvent :=
  ⟨3, "WARN", "svc", "msg", "lg", some "trace-7", [("k", "v")], "host-1", 9,
   some 4⟩

/-- Message of 70000 ASCII characters: its event serializes beyond 64KB. -/
def bigMsg : String := ⟨List.replicate 70000 'a'⟩

/-- A valid event whose serialized size exceeds the 64KB bound. -/
def bigEvent : LogEvent :=
  ⟨0, "INFO", "svc", bigMsg, "lg", none, [], "", 0, none⟩

/-- Discovery environment for the remote-override scenario: the override
names a healthy hub AND a valid, live, healthy descriptor file exists. -/
def envRemote : DiscoveryEnv :=
  { mohnitor_remote := some "ws://127.0.0.1:17361/ws"
    mohnitor_token := none
    descriptor_file := some (.parsed ⟨"127.0.0.1", 17361, 42, none, 0, "1.0.0"⟩)
    httpStatus := fun _ _ => some 200
    pid_alive := fun _ => true
    now := 0 }

/-- Discovery environment for the port-probe scenario: no override, no
descriptor file, and a healthy hub answering on port 17361. -/
def envProbe : DiscoveryEnv :=
  { mohnitor_remote := none
    mohnitor_token := none
    descriptor_file := none
    httpStatus := fun h p => if h = "127.0.0.1" ∧ p = 17361 then some 200 else none
    pid_alive := fun _ => true
    now := 0 }

/-- Election environment in which every port in the reserved range fails
to bind. -/
def envNoPorts : ElectionEnv :=
  { self_pid := 42
    now := 0
    pid_alive := fun _ => true
    port_free := fun _ => false
    gen_token := "tok"
    host := "127.0.0.1"
    base_port := 17361 }

theorem bigMsg_length : bigMsg.data.length = 70000 := by
  show (List.replicate 70000 'a').length = 70000
  exact List.length_replicate 70000 'a'

theorem bigEvent_oversized : 65536 < bigEvent.serialized_size := by
  have h := message_length_le_serialized_size bigEvent
  have hm : bigEvent.message.data.length = 70000 := bigMsg_length
  omega

/-! ### Claim theorems -/

/-- C1: the claim states that a hub whose ring buffer is at capacity
evicts the OLDEST buffered event and appends the incoming one.  The code
(`hub.py` lines 316–324) does the opposite: when
`len(event_buffer) >= buffer_size` it increments `dropped_events` and
never appends, so the incoming event is discarded and the oldest events
are kept.  Evaluated here at a capacity-1 hub holding `evA`: ingesting a
valid `evB` leaves the buffer still `[evA]` with one drop recorded,
where the claim requires the buffer to become `[evB]`. -/
theorem C1_full_buffer_keeps_oldest :
    (MohnitorHub.handleLogEvent ⟨1, [evA], 0⟩ (LogEvent.to_dict evB) 5) =
      ⟨1, [evA], 1⟩ := by
  unfold MohnitorHub.handleLogEvent
  rw [from_dict_to_dict evB (by decide) (by decide)]
  dsimp only
  rw [if_pos (by decide)]

/-- C2 counterexample: a `log_event` whose payload serializes beyond the
64KB bound is NOT rejected by the hub ingest — it is appended to the ring
buffer like any other event: `_handle_client_message` never calls
`validate_size`. -/
theorem C2_counterexample_oversized_ingested :
    65536 < bigEvent.serialized_size ∧
    ((⟨5, [], 0⟩ : MohnitorHub).handleLogEvent (LogEvent.to_dict bigEvent)
        7).event_buffer = [{ bigEvent with received_at := some 7 }] := by
  refine ⟨bigEvent_oversized, ?_⟩
  unfold MohnitorHub.handleLogEvent
  rw [from_dict_to_dict bigEvent (by decide) (by decide)]
  dsimp only
  rw [if_neg (by decide)]
  simp

/-- C2 amended: the hub ingest applies no size bound — any event whose
payload parses is appended whenever the buffer is below capacity,
regardless of serialized size; the 64KB rejection exists only in
`LogEvent.validate_size` (never invoked by ingest), which raises exactly
when the serialized size exceeds the given limit. -/
theorem C2_amended_no_ingest_size_check :
    (∀ (hub : MohnitorHub) (p : LogEventDict) (ev : LogEvent) (now : DateTime),
      LogEvent.from_dict p = .ok ev →
      hub.event_buffer.length < hub.buffer_size →
      (hub.handleLogEvent p now).event_buffer
        = hub.event_buffer ++ [{ ev with received_at := some now }]) ∧
    (∀ (e : LogEvent) (m : Nat), m < e.serialized_size →
      LogEvent.validate_size e m = .error "LogEvent size exceeds limit") := by
  constructor
  · intro hub p ev now hp hlt
    unfold MohnitorHub.handleLogEvent
    rw [hp]
    dsimp only
    rw [if_neg (by omega)]
  · intro e m hm
    unfold LogEvent.validate_size
    rw [if_pos hm]

/-- C2 witness: the amended theorem applied at the oversized `bigEvent`
ingested into an empty capacity-5 hub, and to `validate_size` at the
64KB limit. -/
theorem C2_amended_witness :
    ((⟨5, [], 0⟩ : MohnitorHub).handleLogEvent (LogEvent.to_dict bigEvent)
        7).event_buffer = [] ++ [{ bigEvent with received_at := some 7 }] ∧
    LogEvent.validate_size bigEvent 65536 =
      .error "LogEvent size exceeds limit" :=
  ⟨C2_amended_no_ingest_size_check.1 ⟨5, [], 0⟩ (LogEvent.to_dict bigEvent)
      bigEvent 7 (from_dict_to_dict bigEvent (by decide) (by decide))
      (by decide),
   C2_amended_no_ingest_size_check.2 bigEvent 65536 bigEvent_oversized⟩

/-- C3: the claim states that a well-formed `MOHNITOR_REMOTE` ws:// URL
whose health check succeeds makes `discover_hub()` return a synthesized
descriptor, winning over a valid descriptor file.  In the code the
synthesized `HubDescriptor(pid=0, ...)` fails `_validate_pid` (which
requires a positive pid); the `ValueError` is swallowed by the
`except` clause and `discover_hub()` returns `None` — here evaluated in
an environment where every health check succeeds, the descriptor file is
valid and its pid alive. -/
theorem C3_remote_override_returns_none : discover_hub envRemote = .ok none := by
  rfl

/-- C4: the claim states `discover_hub()` never raises, including when a
healthy hub answers the health check on a probed loopback port.  In the
code that exact case constructs `HubDescriptor(pid=0, ...)`, whose
`_validate_pid` raises `ValueError`, and `_probe_default_port` catches
only `requests.RequestException`, so the exception escapes to the
caller — here evaluated with no override, no descriptor file and a
healthy hub on port 17361. -/
theorem C4_discover_hub_raises :
    discover_hub envProbe = .error "PID must be positive integer" := by
  rfl

/-- C5: ingesting `c+k` valid log events into a fresh hub of capacity `c`
leaves exactly `c` events in the buffer and a drop counter of `k`. -/
theorem C5_capacity_plus_k (c k : Nat) (msgs : List (LogEventDict × DateTime))
    (hlen : msgs.length = c + k)
    (hok : ∀ m ∈ msgs, (LogEvent.from_dict m.1).isOk) :
    ((⟨c, [], 0⟩ : MohnitorHub).ingestAll msgs).event_buffer.length = c ∧
    ((⟨c, [], 0⟩ : MohnitorHub).ingestAll msgs).dropped_events = k := by
  obtain ⟨h1, h2, h3⟩ := ingestAll_counts msgs ⟨c, [], 0⟩ hok (by simp)
  constructor
  · rw [h2]; simp [hlen]
  · rw [h3]; simp [hlen]

/-- C5 witness: three valid events into a capacity-2 hub leave two
buffered events and one drop. -/
theorem C5_capacity_plus_k_witness :
    ((⟨2, [], 0⟩ : MohnitorHub).ingestAll
      [(LogEvent.to_dict evA, 1), (LogEvent.to_dict evB, 2),
       (LogEvent.to_dict evA, 3)]).event_buffer.length = 2 ∧
    ((⟨2, [], 0⟩ : MohnitorHub).ingestAll
      [(LogEvent.to_dict evA, 1), (LogEvent.to_dict evB, 2),
       (LogEvent.to_dict evA, 3)]).dropped_events = 1 := by
  refine C5_capacity_plus_k 2 1 _ rfl ?_
  intro m hm
  simp only [List.mem_cons, List.not_mem_nil, or_false] at hm
  rcases hm with rfl | rfl | rfl
  · rw [Except.isOk, from_dict_to_dict evA (by decide) (by decide)]; rfl
  · rw [Except.isOk, from_dict_to_dict evB (by decide) (by decide)]; rfl
  · rw [Except.isOk, from_dict_to_dict evA (by decide) (by decide)]; rfl

/-- C6: `emit(record)` is a total function of the modelled state — it
returns for every record and queue state without raising into the host
(every internal exception is caught) — and when the bounded queue is
full the event is silently dropped with the handler state, queue
included, unchanged; otherwise at most one message is appended. -/
theorem C6_emit_never_blocks_or_raises (h : MohnitorForwardingHandler)
    (record : LogRecord) :
    (0 < h.buffer_size → h.buffer_size ≤ h.log_queue.length →
      h.emit record = h) ∧
    (h.emit record = h ∨
      ∃ d, h.emit record = { h with log_queue := h.log_queue ++ [d] }) := by
  constructor
  · intro h1 h2
    exact emit_full_drops h record ⟨h1, h2⟩
  · unfold MohnitorForwardingHandler.emit
    cases LogEvent.make record.created record.levelname h.service
        record.message record.name record.trace_id record.context "localhost"
        record.process none with
    | error e => exact .inl rfl
    | ok ev =>
      dsimp only
      by_cases hfull : 0 < h.buffer_size ∧ h.buffer_size ≤ h.log_queue.length
      · rw [if_pos hfull]; exact .inl rfl
      · rw [if_neg hfull]; exact .inr ⟨LogEvent.to_dict ev, rfl⟩

/-- C6 witness: the theorem applied to a full one-slot queue: the emit is
a no-op. -/
theorem C6_emit_witness :
    (MohnitorForwardingHandler.emit ⟨"svc", 1, [LogEvent.to_dict evA]⟩
      ⟨0, "INFO", "hello", "auth.handler", none, [], 0⟩ =
      ⟨"svc", 1, [LogEvent.to_dict evA]⟩) ∧
    (MohnitorForwardingHandler.emit ⟨"svc", 1, [LogEvent.to_dict evA]⟩
        ⟨0, "INFO", "hello", "auth.handler", none, [], 0⟩ =
        ⟨"svc", 1, [LogEvent.to_dict evA]⟩ ∨
      ∃ d, MohnitorForwardingHandler.emit ⟨"svc", 1, [LogEvent.to_dict evA]⟩
          ⟨0, "INFO", "hello", "auth.handler", none, [], 0⟩ =
          ⟨"svc", 1, [LogEvent.to_dict evA] ++ [d]⟩) := by
  have t := C6_emit_never_blocks_or_raises
    ⟨"svc", 1, [LogEvent.to_dict evA]⟩
    ⟨0, "INFO", "hello", "auth.handler", none, [], 0⟩
  exact ⟨t.1 (by decide) (by simp), t.2⟩

/-- C7: `emit` enqueues only records whose levelname is one of the five
accepted levels: any other levelname — Python's standard `WARNING` in
particular — makes `LogEvent` construction raise, the exception is
swallowed, and the handler state is unchanged, so such records never
reach the queue. -/
theorem C7_emit_level_gate (h : MohnitorForwardingHandler)
    (record : LogRecord) :
    (record.levelname ∉ validLevels → h.emit record = h) ∧
    (record.levelname = "WARNING" → h.emit record = h) := by
  constructor
  · exact emit_invalid_level_drops h record
  · intro hw
    apply emit_invalid_level_drops h record
    rw [hw]
    decide

/-- C7 witness: a record with levelname `WARNING` is silently dropped. -/
theorem C7_emit_level_gate_witness :
    MohnitorForwardingHandler.emit ⟨"svc", 20000, []⟩
      ⟨0, "WARNING", "careful", "lg", none, [], 0⟩ = ⟨"svc", 20000, []⟩ :=
  (C7_emit_level_gate ⟨"svc", 20000, []⟩
    ⟨0, "WARNING", "careful", "lg", none, [], 0⟩).2 rfl

/-- C8: whenever `try_become_hub` acquires the election lock, the lock
file is removed on every exit path (the `finally` clause), and when in
addition every port of the reserved range fails to bind the call returns
`None` rather than raising. -/
theorem C8_election_releases_lock (env : ElectionEnv) (fs : ElectionFS)
    (hacq : (_acquire_lock env fs).1 = true) :
    (try_become_hub env fs).2.lock = none ∧
    ((∀ p ∈ electionPorts env.base_port, env.port_free p = false) →
      (try_become_hub env fs).1 = .ok none) := by
  refine ⟨try_become_hub_releases env fs hacq, fun hports => ?_⟩
  exact (try_become_hub_exhausted env fs hacq hports).1

/-- C8 witness: the theorem applied to an environment with every port
taken: the election fails with `None` and the lock ends released. -/
theorem C8_election_releases_lock_witness :
    (try_become_hub envNoPorts ⟨none, none⟩).2.lock = none ∧
    (try_become_hub envNoPorts ⟨none, none⟩).1 = .ok none := by
  have t := C8_election_releases_lock envNoPorts ⟨none, none⟩ rfl
  exact ⟨t.1, t.2 (fun p hp => rfl)⟩

/-- C9: for every constructible `LogEvent` — any combination of present
or absent `trace_id`, `received_at` and context entries —
`from_dict (to_dict event)` reproduces the event exactly. -/
theorem C9_roundtrip (e : LogEvent) (hl : e.level ∈ validLevels)
    (hs : e.service ≠ "") :
    LogEvent.from_dict (LogEvent.to_dict e) = .ok e :=
  from_dict_to_dict e hl hs

/-- C9 witness: the round-trip at an event with every optional present
and at one with every optional absent. -/
theorem C9_roundtrip_witness :
    LogEvent.from_dict (LogEvent.to_dict evFull) = .ok evFull ∧
    LogEvent.from_dict (LogEvent.to_dict evA) = .ok evA :=
  ⟨C9_roundtrip evFull (by decide) (by decide),
   C9_roundtrip evA (by decide) (by decide)⟩

/-- C10 counterexample: in the interleaving in which process 0 runs its
whole election before process 1 starts — a legal schedule of two
processes racing `try_become_hub` concurrently — BOTH processes obtain a
non-null port: the winner releases the lock before returning, so
exactly-one does not hold for every schedule. -/
theorem C10_counterexample_two_winners :
    ((raceRun 2 17361 (raceInit 2) [0, 0, 1, 1]).procs 0 =
      .finished (some 17361)) ∧
    ((raceRun 2 17361 (raceInit 2) [0, 0, 1, 1]).procs 1 =
      .finished (some 17361)) := by
  decide

/-- C10 amended: the exclusive-create lock gives mutual exclusion of the
critical section — in every interleaving at most one process holds the
lock at any point — and an acquisition attempt made while any process
holds the lock returns `None`; exactly one winner is guaranteed only
among attempts that overlap the winner's critical section, not over a
whole run. -/
theorem C10_amended_mutual_exclusion (n base_port : Nat) :
    (∀ (sched : List (Fin n)) (i j : Fin n),
      (raceRun n base_port (raceInit n) sched).procs i = .locked →
      (raceRun n base_port (raceInit n) sched).procs j = .locked → i = j) ∧
    (∀ (s : RaceState n) (a b : Fin n), s.procs a = .ready →
      s.lock = some b →
      (raceStep n base_port s a).procs a = .finished none) := by
  constructor
  · exact race_mutex n base_port
  · intro s a b ha hb
    unfold raceStep
    rw [ha, hb]
    dsimp only
    rw [Function.update_same]

/-- C10 witness: the amended theorem applied at two processes — the lone
locked process after one step is the unique lock holder, and a second
process attempting acquisition in that state returns `None`. -/
theorem C10_amended_mutual_exclusion_witness :
    ((0 : Fin 2) = 0) ∧
    ((raceStep 2 17361 (raceRun 2 17361 (raceInit 2) [0]) 1).procs 1 =
      .finished none) :=
  ⟨(C10_amended_mutual_exclusion 2 17361).1 [0] 0 0 (by decide) (by decide),
   (C10_amended_mutual_exclusion 2 17361).2 (raceRun 2 17361 (raceInit 2) [0])
     1 0 (by decide) (by decide)⟩

end Mohnitor
